import Mathlib

/-!
Shallow embedding of the real-time delivery layer of the lovable backend:
the generation task runner (`src/services/generation_service.py`), the
authenticated task-stream gate (`src/routers/generate.py`), and the preview
reload broadcaster (`src/services/preview_service.py`), together with proofs
of the specified streaming, authentication and broadcast properties.
-/

namespace LovableBackend

/-- One mock file diff, as produced by `GenerationService._mock_diffs`. -/
structure DiffRec where
  path : String
  change_type : String
  patch : String
deriving DecidableEq

/-- A JSON-serialisable value stored in an event's `data` dict. -/
inductive Val where
  | str (s : String)
  | nat (n : Nat)
  | diff (d : DiffRec)
deriving DecidableEq

/-- `GenerationEvent` from `generation_service.py`: a `type` tag and a
`data` dict, embedded as an association list in insertion order. -/
structure GenerationEvent where
  type : String
  data : List (String × Val)
deriving DecidableEq

/-- The `status` event enqueued at lines 70-72 and 97-102. -/
def statusEvent (phase task_id : String) : GenerationEvent :=
  ⟨"status", [("phase", .str phase), ("task_id", .str task_id)]⟩

/-- The `token` event enqueued at lines 78-83. -/
def tokenEvent (index : Nat) (token task_id : String) : GenerationEvent :=
  ⟨"token", [("index", .nat index), ("token", .str token), ("task_id", .str task_id)]⟩

/-- The `file_diff` event enqueued at lines 88-93. -/
def fileDiffEvent (index : Nat) (diff : DiffRec) (task_id : String) : GenerationEvent :=
  ⟨"file_diff", [("index", .nat index), ("diff", .diff diff), ("task_id", .str task_id)]⟩

/-- The `error` event enqueued at lines 106-111. -/
def errorEvent (message task_id : String) : GenerationEvent :=
  ⟨"error", [("message", .str message), ("task_id", .str task_id)]⟩

/-- The terminal `end` event enqueued in the `finally` block at line 115. -/
def endEvent (task_id : String) : GenerationEvent :=
  ⟨"end", [("task_id", .str task_id)]⟩

/-- Python `str.split()` with no separator on a character list: splits on
runs of whitespace and never yields empty fields. -/
def pySplitAux : List Char → List Char → List (List Char)
  | [], acc => if acc.isEmpty then [] else [acc.reverse]
  | c :: rest, acc =>
    if c.isWhitespace then
      if acc.isEmpty then pySplitAux rest []
      else acc.reverse :: pySplitAux rest []
    else pySplitAux rest (c :: acc)

/-- Python `str.split()` with no separator argument. -/
def pySplit (s : String) : List String :=
  (pySplitAux s.data []).map fun cs => ⟨cs⟩

/-- Python `str.strip()` on a character list: remove leading and trailing
whitespace. -/
def pyStripData (cs : List Char) : List Char :=
  ((cs.dropWhile Char.isWhitespace).reverse.dropWhile Char.isWhitespace).reverse

/-- Python `str.strip()`: remove leading and trailing whitespace. -/
def pyStrip (s : String) : String :=
  ⟨pyStripData s.data⟩

/-- Python `str.lower()` (ASCII case folding, which is all the bearer
check compares). -/
def pyLower (s : String) : String :=
  ⟨s.data.map Char.toLower⟩

/-- Python `str.startswith(pat)` on character lists. -/
def beginsWith : List Char → List Char → Bool
  | [], _ => true
  | _ :: _, [] => false
  | p :: ps, c :: cs => p = c && beginsWith ps cs

/-- Python `s.split(" ", 1)[1]`: everything after the first literal space,
when a space occurs. -/
def afterFirstSpace : List Char → Option (List Char)
  | [] => none
  | c :: cs => if c = ' ' then some cs else afterFirstSpace cs

/-- `GenerationService._tokenize_prompt` (lines 131-136): the empty prompt
is replaced by a fixed three-token placeholder, anything else is stripped
and whitespace-split. -/
def tokenize_prompt (prompt : String) : List String :=
  if prompt = "" then ["[no]", "prompt", "provided"]
  else pySplit (pyStrip prompt)

/-- `safe_prompt` truncation from `_mock_diffs` (line 140). -/
def safePrompt (prompt : String) : String :=
  if prompt.length > 20 then prompt.take 20 ++ "..." else prompt

/-- `GenerationService._mock_diffs` (lines 138-152): two fixed mock diffs. -/
def mock_diffs (prompt : String) : List DiffRec :=
  [⟨"README.md", "modify", "+ Added section for: " ++ safePrompt prompt⟩,
   ⟨"src/app/page.tsx", "add", "+ Page created for: " ++ safePrompt prompt⟩]

/-- One observable action of `run_task` on its task's state: an enqueue
into the queue, setting the `done` flag, or recording an error message. -/
inductive RunAction where
  | enqueue (e : GenerationEvent)
  | setDone
  | setError (msg : String)
deriving DecidableEq

/-- The `token` events of the streaming loop (lines 76-83): one per
prompt token, with 1-based `enumerate` indices. -/
def promptTokenEvents (task_id prompt : String) : List GenerationEvent :=
  (tokenize_prompt prompt).enum.map fun p => tokenEvent (p.1 + 1) p.2 task_id

/-- The `file_diff` events of the diff loop (lines 86-93): one per mock
diff, with 1-based `enumerate` indices. -/
def promptDiffEvents (task_id prompt : String) : List GenerationEvent :=
  (mock_diffs prompt).enum.map fun p => fileDiffEvent (p.1 + 1) p.2 task_id

/-- The events the `try` block of `run_task` enqueues strictly before the
final `status(completed)` enqueue. -/
def tryInitEvents (task_id prompt : String) : List GenerationEvent :=
  statusEvent "started" task_id
    :: (promptTokenEvents task_id prompt ++ promptDiffEvents task_id prompt)

/-- The events enqueued by the `try` block of `run_task` (lines 68-103)
when no exception occurs: `status(started)`, one `token` per prompt token
(1-based indices), one `file_diff` per mock diff (1-based indices), and
`status(completed)` last. -/
def tryEvents (task_id prompt : String) : List GenerationEvent :=
  tryInitEvents task_id prompt ++ [statusEvent "completed" task_id]

/-- The action trace of `run_task` (lines 63-115). `fault = none` is the
success path: the `try` block's events, then `done := true` (line 103),
then the `finally` enqueue of `end` (line 115). `fault = some (k, msg)`
models an exception raised at an await point of the `try` block after `k`
of its events were enqueued (exceptions can only fire strictly before the
`completed` enqueue, since no await separates that enqueue from the end of
the `try` block): the handler records the message (line 105), enqueues the
`error` event (lines 106-111), sets `done` (line 112), and the `finally`
block enqueues `end`. The trace is total: the runner never propagates the
exception to its caller. -/
def runActions (task_id prompt : String) (fault : Option (Nat × String)) : List RunAction :=
  match fault with
  | none =>
      ((tryEvents task_id prompt).map .enqueue) ++ [.setDone, .enqueue (endEvent task_id)]
  | some (k, msg) =>
      (((tryEvents task_id prompt).take k).map .enqueue)
        ++ [.setError msg, .enqueue (errorEvent msg task_id), .setDone,
            .enqueue (endEvent task_id)]

/-- The events a trace enqueues, in order. -/
def actionEvents (acts : List RunAction) : List GenerationEvent :=
  acts.filterMap fun a =>
    match a with
    | .enqueue e => some e
    | _ => none

/-- The full event sequence `run_task` enqueues for a prompt and fault. -/
def runEvents (task_id prompt : String) (fault : Option (Nat × String)) : List GenerationEvent :=
  actionEvents (runActions task_id prompt fault)

/-- The observable per-task state mutated by `run_task`: the queue
contents, the `done` flag and the `error` field of `_TaskState`. -/
structure TaskObs where
  events : List GenerationEvent
  done : Bool
  error : Option String
deriving DecidableEq

/-- Effect of one action on the observable task state. -/
def applyAction (s : TaskObs) : RunAction → TaskObs
  | .enqueue e => { s with events := s.events ++ [e] }
  | .setDone => { s with done := true }
  | .setError m => { s with error := some m }

/-- The observable task state after the first `n` actions of a trace,
starting from the state of a freshly created task (empty queue,
`done = false`, no error). -/
def stateAt (acts : List RunAction) (n : Nat) : TaskObs :=
  (acts.take n).foldl applyAction ⟨[], false, none⟩

/-- `_TaskState` from `generation_service.py` (lines 18-28), with the
queue embedded as the list of events enqueued so far. -/
structure TaskState where
  task_id : String
  owner : String
  prompt : String
  done : Bool
  error : Option String
  queue : List GenerationEvent
deriving DecidableEq

/-- The `GenerationService` registry: the `_tasks` dict, embedded as an
association list (most recent binding first). -/
structure GenerationServiceState where
  tasks : List (String × TaskState)
deriving DecidableEq

/-- The empty registry built by `GenerationService.__init__`. -/
def emptyService : GenerationServiceState := ⟨[]⟩

/-- `self._tasks.get(task_id)`. -/
def lookupTask (st : GenerationServiceState) (task_id : String) : Option TaskState :=
  (st.tasks.find? fun p => p.1 = task_id).map (·.2)

/-- `GenerationService.create_task` (lines 42-54). The fresh uuid is passed
in explicitly; the task starts with an empty queue, `done = false` and no
error. Dict assignment replaces any existing binding for the key. -/
def create_task (st : GenerationServiceState) (task_id owner prompt : String) :
    GenerationServiceState :=
  ⟨(task_id, ⟨task_id, owner, prompt, false, none, []⟩)
    :: st.tasks.filter fun p => ¬ p.1 = task_id⟩

/-- `GenerationService.get_task_owner` (lines 57-60). -/
def get_task_owner (st : GenerationServiceState) (task_id : String) : Option String :=
  (lookupTask st task_id).map (·.owner)

/-- Store an updated task state back into the registry (in Python the
`_TaskState` object is mutated in place; the dict keeps mapping the id to
that object). -/
def setTask (st : GenerationServiceState) (task_id : String) (ts : TaskState) :
    GenerationServiceState :=
  ⟨(task_id, ts) :: st.tasks.filter fun p => ¬ p.1 = task_id⟩

/-- The queue contents recorded for a task (empty for an unknown id). -/
def taskQueue (st : GenerationServiceState) (task_id : String) : List GenerationEvent :=
  ((lookupTask st task_id).map (·.queue)).getD []

/-- `GenerationService.run_task` (lines 63-115) at registry level: a no-op
when the task id is unknown (lines 65-67) — this existence check is the
only guard, nothing prevents re-execution — otherwise the action trace is
applied to the task's current observable state. -/
def run_task (st : GenerationServiceState) (task_id : String)
    (fault : Option (Nat × String)) : GenerationServiceState :=
  match lookupTask st task_id with
  | none => st
  | some ts =>
      let obs := (runActions task_id ts.prompt fault).foldl applyAction
        ⟨ts.queue, ts.done, ts.error⟩
      setTask st task_id
        { ts with queue := obs.events, done := obs.done, error := obs.error }

/-- Outcome of a connection attempt on `/ws/generate/{task_id}`. -/
inductive WsOutcome where
  | closed (code : Nat)
  | accepted (email : String)
deriving DecidableEq

/-- The identity the endpoint's credential check decodes from the
Authorization header, when the header is present and well formed: the
header must be non-empty, start (case-insensitively) with the bearer
scheme, and its stripped remainder must have the dummy-auth shape
`token-<email>`; the decoded identity is `<email>` stripped. -/
def decodeIdentity : Option String → Option String
  | none => none
  | some h =>
    if h = "" then none
    else if ¬ beginsWith "bearer ".data (pyLower h).data then none
    else
      let token := pyStripData ((afterFirstSpace h.data).getD [])
      if ¬ beginsWith "token-".data token then none
      else some ⟨pyStripData (token.drop 6)⟩

/-- The auth gate of `ws_stream_generation` (`generate.py` lines 77-94):
missing or malformed credential closes with 4401 before accept; otherwise
the decoded email is checked against `get_task_owner` — a falsy owner
(unknown task) or an owner differing from the email closes with 4403;
otherwise the connection is accepted. -/
def wsGate : Option String → Option String → WsOutcome
  | none, _ => .closed 4401
  | some h, owner =>
    if h = "" then .closed 4401
    else if ¬ beginsWith "bearer ".data (pyLower h).data then .closed 4401
    else
      let token := pyStripData ((afterFirstSpace h.data).getD [])
      if ¬ beginsWith "token-".data token then .closed 4401
      else
        let email : String := ⟨pyStripData (token.drop 6)⟩
        match owner with
        | none => .closed 4403
        | some o => if o = "" ∨ o ≠ email then .closed 4403 else .accepted email

/-- `stream_events` drains the queue until the first `end` event,
inclusive (lines 124-129). -/
def drainUntilEnd : List GenerationEvent → List GenerationEvent
  | [] => []
  | e :: rest => if e.type = "end" then [e] else e :: drainUntilEnd rest

/-- A full connection attempt on the task-stream endpoint: the gate's
outcome paired with the events delivered over the socket. On every closed
branch the handler returns before `websocket.accept`, so zero events are
delivered; on accept it relays `stream_events` output. -/
def wsConnect (authHeader : Option String) (owner : Option String)
    (queue : List GenerationEvent) : WsOutcome × List GenerationEvent :=
  match wsGate authHeader owner with
  | .closed code => (.closed code, [])
  | .accepted email => (.accepted email, drainUntilEnd queue)

/-- The per-key registry/lock state read and written by one
`broadcast_reload` call: whether `_states` has an entry for the key, the
entry's socket set (a list of distinct connection ids), and whether the
key's reload lock is held. -/
structure BState where
  hasState : Bool
  sockets : List Nat
  locked : Bool
deriving DecidableEq

/-- Control state of one in-flight `broadcast_reload` coroutine
(`preview_service.py` lines 69-91). `start` is the synchronous block up to
and including lock acquisition and the `list(state.sockets)` snapshot
(lines 71-82; asyncio runs it without a context switch, since the only
awaits of the function are the per-socket sends and the lock release).
`sending pending toRemove` iterates the snapshot, one awaited
`ws.send_text` per step (lines 82-86). When the snapshot is exhausted the
failed sockets are pruned from the live set and the lock is released
(lines 87-91). -/
inductive BThread where
  | start
  | sending (pending : List Nat) (toRemove : List Nat)
  | finished
deriving DecidableEq

/-- One asyncio step of a `broadcast_reload` coroutine. `fail c = true`
means `ws.send_text` raises for connection `c`. Returns the new control
state, the new shared state, and the connections that observed the reload
message during this step. A `start` step with no registry entry or an
empty socket set returns at line 74; with the lock already held it returns
at line 78, sending nothing and leaving the shared state untouched;
otherwise it acquires the lock and snapshots the socket list. A send step
either delivers to the head connection or collects it into `to_remove`,
and never touches the live socket set. The final step removes exactly the
collected connections and releases the lock unconditionally. -/
def broadcastStep (fail : Nat → Bool) : BThread → BState → BThread × BState × List Nat
  | .start, st =>
      if ¬ st.hasState ∨ st.sockets = [] then (.finished, st, [])
      else if st.locked then (.finished, st, [])
      else (.sending st.sockets [], { st with locked := true }, [])
  | .sending [] toRemove, st =>
      (.finished,
        { st with sockets := st.sockets.filter (fun c => ¬ c ∈ toRemove),
                  locked := false }, [])
  | .sending (c :: rest) toRemove, st =>
      if fail c then (.sending rest (toRemove ++ [c]), st, [])
      else (.sending rest toRemove, st, [c])
  | .finished, st => (.finished, st, [])

/-- A system of two `broadcast_reload` calls for the same key, with the
reload messages each call has delivered so far. -/
structure BSys where
  state : BState
  t1 : BThread
  t2 : BThread
  log1 : List Nat
  log2 : List Nat
deriving DecidableEq

/-- Scheduler step: run one asyncio step of the chosen call. -/
def sysStep (fail : Nat → Bool) (sys : BSys) (who : Bool) : BSys :=
  if who then
    let r := broadcastStep fail sys.t1 sys.state
    { sys with t1 := r.1, state := r.2.1, log1 := sys.log1 ++ r.2.2 }
  else
    let r := broadcastStep fail sys.t2 sys.state
    { sys with t2 := r.1, state := r.2.1, log2 := sys.log2 ++ r.2.2 }

/-- Run a schedule (`true` = step call 1, `false` = step call 2). -/
def runSched (fail : Nat → Bool) (sys : BSys) (sched : List Bool) : BSys :=
  sched.foldl (sysStep fail) sys

/-- Initial system: both calls about to run, three registered connections,
lock free. -/
def threeConnSys : BSys :=
  ⟨⟨true, [1, 2, 3], false⟩, .start, .start, [], []⟩

/-- Number of `end` events in a sequence. -/
def countEnd (l : List GenerationEvent) : Nat :=
  (l.filter fun e => e.type = "end").length

/-- The `token` events of a sequence, in order. -/
def tokenEvts (l : List GenerationEvent) : List GenerationEvent :=
  l.filter fun e => e.type = "token"

/-- The `index` field of a `token` or `file_diff` event. -/
def tokenIndex (e : GenerationEvent) : Nat :=
  match e.data with
  | (_, .nat i) :: _ => i
  | _ => 0

/-- A rapid-succession schedule: call 2 performs its lock check after `k`
steps of call 1; call 1 needs 5 steps in total on three connections
(check-and-acquire, three sends, prune-and-release), so for
`1 ≤ k ≤ 4` the check happens while call 1 holds the in-flight marker. -/
def rapidSched (k : Nat) : List Bool :=
  List.replicate k true ++ false :: List.replicate (5 - k) true

/-- A sequential schedule: call 1 runs to completion, then call 2. -/
def sequentialSched : List Bool :=
  List.replicate 5 true ++ List.replicate 5 false

/-! ### Tokenizer lemmas -/

theorem pySplitAux_allWs (ws : List Char) (h : ∀ c ∈ ws, c.isWhitespace) :
    ∀ acc, pySplitAux ws acc = if acc.isEmpty then [] else [acc.reverse] := by
  induction ws with
  | nil => intro acc; rfl
  | cons c rest ih =>
    intro acc
    have hc : c.isWhitespace = true := h c (List.mem_cons_self _ _)
    have hrest : ∀ x ∈ rest, x.isWhitespace := fun x hx => h x (List.mem_cons_of_mem _ hx)
    simp only [pySplitAux, hc, if_true, ih hrest []]
    by_cases hacc : acc.isEmpty <;> simp [hacc]

theorem pySplitAux_append_ws (ws : List Char) (h : ∀ c ∈ ws, c.isWhitespace) :
    ∀ cs acc, pySplitAux (cs ++ ws) acc = pySplitAux cs acc := by
  intro cs
  induction cs with
  | nil =>
    intro acc
    rw [List.nil_append, pySplitAux_allWs ws h acc]
    rfl
  | cons c rest ih =>
    intro acc
    cases hc : c.isWhitespace <;> simp [pySplitAux, hc, ih]

theorem pySplitAux_dropWhile (cs : List Char) :
    pySplitAux (cs.dropWhile Char.isWhitespace) [] = pySplitAux cs [] := by
  induction cs with
  | nil => rfl
  | cons c rest ih =>
    cases hc : c.isWhitespace <;> simp [List.dropWhile_cons, pySplitAux, hc, ih]

theorem pySplit_pyStrip (s : String) : pySplit (pyStrip s) = pySplit s := by
  unfold pySplit pyStrip
  congr 1
  show pySplitAux (((s.data.dropWhile Char.isWhitespace).reverse.dropWhile
    Char.isWhitespace).reverse) [] = pySplitAux s.data []
  have hws : ∀ c ∈ ((s.data.dropWhile Char.isWhitespace).reverse.takeWhile
      Char.isWhitespace).reverse, c.isWhitespace := by
    intro c hc
    rw [List.mem_reverse] at hc
    exact List.mem_takeWhile_imp hc
  have hsplit : ((s.data.dropWhile Char.isWhitespace).reverse.dropWhile
        Char.isWhitespace).reverse
      ++ ((s.data.dropWhile Char.isWhitespace).reverse.takeWhile
        Char.isWhitespace).reverse
      = s.data.dropWhile Char.isWhitespace := by
    rw [← List.reverse_append, List.takeWhile_append_dropWhile, List.reverse_reverse]
  calc pySplitAux (((s.data.dropWhile Char.isWhitespace).reverse.dropWhile
        Char.isWhitespace).reverse) []
      = pySplitAux (((s.data.dropWhile Char.isWhitespace).reverse.dropWhile
          Char.isWhitespace).reverse
        ++ ((s.data.dropWhile Char.isWhitespace).reverse.takeWhile
          Char.isWhitespace).reverse) [] :=
        (pySplitAux_append_ws _ hws _ _).symm
    _ = pySplitAux (s.data.dropWhile Char.isWhitespace) [] := by rw [hsplit]
    _ = pySplitAux s.data [] := pySplitAux_dropWhile s.data

theorem pySplit_allWs (s : String) (h : ∀ c ∈ s.data, c.isWhitespace) :
    pySplit s = [] := by
  unfold pySplit
  rw [pySplitAux_allWs s.data h []]
  rfl

/-! ### Runner trace lemmas -/

theorem actionEvents_append (a b : List RunAction) :
    actionEvents (a ++ b) = actionEvents a ++ actionEvents b :=
  List.filterMap_append a b _

theorem actionEvents_map_enqueue :
    ∀ l : List GenerationEvent, actionEvents (l.map .enqueue) = l
  | [] => rfl
  | e :: rest => by
      show e :: actionEvents (rest.map .enqueue) = e :: rest
      rw [actionEvents_map_enqueue rest]

theorem runEvents_none (tid p : String) :
    runEvents tid p none = tryEvents tid p ++ [endEvent tid] := by
  unfold runEvents runActions
  rw [actionEvents_append, actionEvents_map_enqueue]
  rfl

theorem runEvents_fault (tid p : String) (k : Nat) (msg : String) :
    runEvents tid p (some (k, msg))
      = (tryEvents tid p).take k ++ [errorEvent msg tid, endEvent tid] := by
  unfold runEvents runActions
  rw [actionEvents_append, actionEvents_map_enqueue]
  rfl

theorem type_of_mem_promptTokenEvents {tid p : String} {e : GenerationEvent}
    (h : e ∈ promptTokenEvents tid p) : e.type = "token" := by
  unfold promptTokenEvents at h
  rw [List.mem_map] at h
  obtain ⟨q, _, rfl⟩ := h
  rfl

theorem type_of_mem_promptDiffEvents {tid p : String} {e : GenerationEvent}
    (h : e ∈ promptDiffEvents tid p) : e.type = "file_diff" := by
  unfold promptDiffEvents at h
  rw [List.mem_map] at h
  obtain ⟨q, _, rfl⟩ := h
  rfl

theorem type_of_mem_tryEvents {tid p : String} {e : GenerationEvent}
    (h : e ∈ tryEvents tid p) :
    e.type = "status" ∨ e.type = "token" ∨ e.type = "file_diff" := by
  unfold tryEvents tryInitEvents at h
  rcases List.mem_append.mp h with h | h
  · rcases List.mem_cons.mp h with h | h
    · subst h; exact Or.inl rfl
    · rcases List.mem_append.mp h with h | h
      · exact Or.inr (Or.inl (type_of_mem_promptTokenEvents h))
      · exact Or.inr (Or.inr (type_of_mem_promptDiffEvents h))
  · rcases List.mem_cons.mp h with h | h
    · subst h; exact Or.inl rfl
    · cases h

theorem tryEvents_filter_end (tid p : String) :
    (tryEvents tid p).filter (fun e => e.type = "end") = [] :=
  List.filter_eq_nil_iff.mpr fun e he => by
    rcases type_of_mem_tryEvents he with h | h | h <;> simp [h]

theorem take_tryEvents_filter_end (tid p : String) (k : Nat) :
    ((tryEvents tid p).take k).filter (fun e => e.type = "end") = [] :=
  List.filter_eq_nil_iff.mpr fun e he => by
    rcases type_of_mem_tryEvents (List.take_subset k _ he) with h | h | h <;> simp [h]

theorem endEvent_not_mem_tryEvents (tid p : String) :
    endEvent tid ∉ tryEvents tid p := fun h => by
  rcases type_of_mem_tryEvents h with h' | h' | h' <;> simp [endEvent] at h'

theorem countEnd_runEvents (tid p : String) (fault : Option (Nat × String)) :
    countEnd (runEvents tid p fault) = 1 := by
  cases fault with
  | none =>
    rw [runEvents_none]
    unfold countEnd
    rw [List.filter_append, tryEvents_filter_end]
    rfl
  | some km =>
    obtain ⟨k, msg⟩ := km
    rw [runEvents_fault]
    unfold countEnd
    rw [List.filter_append, take_tryEvents_filter_end]
    rfl

theorem runEvents_getLast (tid p : String) (fault : Option (Nat × String)) :
    (runEvents tid p fault).getLast? = some (endEvent tid) := by
  cases fault with
  | none => rw [runEvents_none]; exact List.getLast?_concat _
  | some km =>
    obtain ⟨k, msg⟩ := km
    rw [runEvents_fault,
      show [errorEvent msg tid, endEvent tid]
        = [errorEvent msg tid] ++ [endEvent tid] from rfl,
      ← List.append_assoc]
    exact List.getLast?_concat _

/-! ### Observable state lemmas -/

theorem foldl_applyAction_events :
    ∀ (acts : List RunAction) (s : TaskObs),
      (acts.foldl applyAction s).events = s.events ++ actionEvents acts := by
  intro acts
  induction acts with
  | nil => intro s; simp [actionEvents]
  | cons a rest ih =>
    intro s
    cases a with
    | enqueue e =>
      rw [List.foldl_cons, ih]
      show (s.events ++ [e]) ++ actionEvents rest = s.events ++ (e :: actionEvents rest)
      simp
    | setDone =>
      rw [List.foldl_cons, ih]
      rfl
    | setError m =>
      rw [List.foldl_cons, ih]
      rfl

theorem foldl_applyAction_done_mono :
    ∀ (acts : List RunAction) (s : TaskObs), s.done = true →
      (acts.foldl applyAction s).done = true := by
  intro acts
  induction acts with
  | nil => intro s h; exact h
  | cons a rest ih =>
    intro s h
    rw [List.foldl_cons]
    apply ih
    cases a <;> simp [applyAction, h]

theorem foldl_applyAction_done_of_mem :
    ∀ (acts : List RunAction) (s : TaskObs), RunAction.setDone ∈ acts →
      (acts.foldl applyAction s).done = true := by
  intro acts
  induction acts with
  | nil => intro s h; cases h
  | cons a rest ih =>
    intro s h
    rw [List.foldl_cons]
    rcases List.mem_cons.mp h with h | h
    · subst h
      exact foldl_applyAction_done_mono rest _ rfl
    · exact ih _ h

theorem enqueue_mem_of_mem_actionEvents :
    ∀ (l : List RunAction) (e : GenerationEvent), e ∈ actionEvents l →
      RunAction.enqueue e ∈ l := by
  intro l
  induction l with
  | nil => intro e h; cases h
  | cons a rest ih =>
    intro e h
    cases a with
    | enqueue x =>
      rcases List.mem_cons.mp h with h | h
      · subst h; exact List.mem_cons_self _ _
      · exact List.mem_cons_of_mem _ (ih e h)
    | setDone => exact List.mem_cons_of_mem _ (ih e h)
    | setError m => exact List.mem_cons_of_mem _ (ih e h)

theorem take_concat_eq_of_mem {α : Type} (l : List α) (b : α) (n : Nat)
    (hnot : b ∉ l) (hmem : b ∈ (l ++ [b]).take n) :
    (l ++ [b]).take n = l ++ [b] := by
  by_cases hn : n ≤ l.length
  · exfalso
    rw [List.take_append_of_le_length hn] at hmem
    exact hnot (List.take_subset n l hmem)
  · apply List.take_of_length_le
    rw [List.length_append]
    simp only [List.length_cons, List.length_nil]
    omega

/-! ### Registry lemmas -/

theorem lookupTask_single (tid : String) (ts : TaskState) :
    lookupTask ⟨[(tid, ts)]⟩ tid = some ts := by
  simp [lookupTask, List.find?]

theorem setTask_single (tid : String) (ts ts' : TaskState) :
    setTask ⟨[(tid, ts)]⟩ tid ts' = ⟨[(tid, ts')]⟩ := by
  simp [setTask]

theorem create_task_empty (tid owner prompt : String) :
    create_task emptyService tid owner prompt
      = ⟨[(tid, ⟨tid, owner, prompt, false, none, []⟩)]⟩ := rfl

theorem run_task_single (tid : String) (ts : TaskState)
    (fault : Option (Nat × String)) :
    run_task ⟨[(tid, ts)]⟩ tid fault
      = ⟨[(tid, { ts with
          queue := ((runActions tid ts.prompt fault).foldl applyAction
            ⟨ts.queue, ts.done, ts.error⟩).events,
          done := ((runActions tid ts.prompt fault).foldl applyAction
            ⟨ts.queue, ts.done, ts.error⟩).done,
          error := ((runActions tid ts.prompt fault).foldl applyAction
            ⟨ts.queue, ts.done, ts.error⟩).error })]⟩ := by
  unfold run_task
  rw [lookupTask_single]
  exact setTask_single ..

theorem taskQueue_run_create (tid owner prompt : String)
    (fault : Option (Nat × String)) :
    taskQueue (run_task (create_task emptyService tid owner prompt) tid fault) tid
      = runEvents tid prompt fault := by
  rw [create_task_empty, run_task_single]
  unfold taskQueue
  rw [lookupTask_single]
  show ((runActions tid prompt fault).foldl applyAction ⟨[], false, none⟩).events
    = runEvents tid prompt fault
  rw [foldl_applyAction_events]
  rfl

theorem taskQueue_run_run_create (tid owner prompt : String) :
    taskQueue (run_task (run_task (create_task emptyService tid owner prompt)
        tid none) tid none) tid
      = runEvents tid prompt none ++ runEvents tid prompt none := by
  rw [create_task_empty, run_task_single, run_task_single]
  unfold taskQueue
  rw [lookupTask_single]
  show ((runActions tid prompt none).foldl applyAction
      ⟨((runActions tid prompt none).foldl applyAction ⟨[], false, none⟩).events, _, _⟩).events
    = runEvents tid prompt none ++ runEvents tid prompt none
  rw [foldl_applyAction_events, foldl_applyAction_events]
  simp [runEvents]

/-! ### Token event lemmas -/

theorem tryEvents_filter_token (tid p : String) :
    (tryEvents tid p).filter (fun e => e.type = "token") = promptTokenEvents tid p := by
  unfold tryEvents tryInitEvents
  rw [List.filter_append, List.filter_cons, List.filter_append]
  have htok : (promptTokenEvents tid p).filter (fun e => e.type = "token")
      = promptTokenEvents tid p :=
    List.filter_eq_self.mpr fun e he => by
      simp [type_of_mem_promptTokenEvents he]
  have hdiff : (promptDiffEvents tid p).filter (fun e => e.type = "token") = [] :=
    List.filter_eq_nil_iff.mpr fun e he => by
      simp [type_of_mem_promptDiffEvents he]
  rw [htok, hdiff]
  simp [statusEvent]

theorem tokenEvts_runEvents_none (tid p : String) :
    tokenEvts (runEvents tid p none) = promptTokenEvents tid p := by
  rw [runEvents_none]
  unfold tokenEvts
  rw [List.filter_append, tryEvents_filter_token]
  simp [endEvent]

theorem map_tokenIndex_promptTokenEvents (tid p : String) :
    (promptTokenEvents tid p).map tokenIndex
      = List.range' 1 (tokenize_prompt p).length := by
  unfold promptTokenEvents
  rw [List.map_map]
  rw [show (tokenIndex ∘ fun q : Nat × String => tokenEvent (q.1 + 1) q.2 tid)
      = (fun n => n + 1) ∘ Prod.fst from rfl]
  rw [← List.map_map, List.enum_map_fst, List.range'_eq_map_range]
  exact List.map_congr_left fun x _ => by omega

theorem length_promptTokenEvents (tid p : String) :
    (promptTokenEvents tid p).length = (tokenize_prompt p).length := by
  unfold promptTokenEvents
  rw [List.length_map, List.enum_length]

theorem tokenize_prompt_ne (p : String) (h : p ≠ "") :
    tokenize_prompt p = pySplit p := by
  unfold tokenize_prompt
  rw [if_neg h, pySplit_pyStrip]

/-! ### Stream gate lemmas -/

theorem wsGate_of_decode_none (ah : Option String) (ow : Option String)
    (h : decodeIdentity ah = none) : wsGate ah ow = .closed 4401 := by
  cases ah with
  | none => rfl
  | some s =>
    simp only [decodeIdentity] at h
    simp only [wsGate]
    split_ifs at h ⊢ with h1 h2 h3 <;> rfl

theorem wsGate_of_decode_some (ah : Option String) (ow : Option String) (B : String)
    (h : decodeIdentity ah = some B) (how : ∀ o, ow = some o → o ≠ B) :
    wsGate ah ow = .closed 4403 := by
  cases ah with
  | none => cases h
  | some s =>
    simp only [decodeIdentity] at h
    simp only [wsGate]
    split_ifs at h ⊢ with h1 h2 h3
    rw [Option.some.injEq] at h
    cases ow with
    | none => rfl
    | some o =>
      have hoB : o ≠ B := how o rfl
      subst h
      simp [hoB]

theorem wsConnect_of_gate_closed (ah : Option String) (ow : Option String)
    (q : List GenerationEvent) (code : Nat) (h : wsGate ah ow = .closed code) :
    wsConnect ah ow q = (.closed code, []) := by
  unfold wsConnect
  rw [h]

/-! ### Claim theorems -/

/-- C1: for a task on which `run_task` is executed exactly once after
`create_task`, the sequence of events enqueued into the task's queue
contains exactly one `end` event and that event is the last element (so
nothing is enqueued after it), for every prompt — the empty prompt
included — and on both the success path and every error path: the
terminal `end` is always enqueued. -/
theorem c1_end_exactly_once_and_last (tid owner prompt : String)
    (fault : Option (Nat × String)) :
    countEnd (taskQueue (run_task (create_task emptyService tid owner prompt)
        tid fault) tid) = 1
    ∧ (taskQueue (run_task (create_task emptyService tid owner prompt)
        tid fault) tid).getLast? = some (endEvent tid) := by
  rw [taskQueue_run_create]
  exact ⟨countEnd_runEvents tid prompt fault, runEvents_getLast tid prompt fault⟩

/-- C2 (amended): the `done` flag is set no later than the `end` enqueue —
at every intermediate state of a `run_task` execution, if the `end` event
has already been enqueued then `done` is true. (The original claim's other
direction fails: `done` is set immediately after the terminal status/error
enqueue and strictly before the `end` enqueue, see the counterexample.) -/
theorem c2_done_set_no_later_than_end (tid prompt : String)
    (fault : Option (Nat × String)) (n : Nat)
    (h : endEvent tid ∈ (stateAt (runActions tid prompt fault) n).events) :
    (stateAt (runActions tid prompt fault) n).done = true := by
  have hev : (stateAt (runActions tid prompt fault) n).events
      = actionEvents ((runActions tid prompt fault).take n) := by
    unfold stateAt
    rw [foldl_applyAction_events]
    rfl
  rw [hev] at h
  have hmem : RunAction.enqueue (endEvent tid) ∈ (runActions tid prompt fault).take n :=
    enqueue_mem_of_mem_actionEvents _ _ h
  obtain ⟨l, hl, hsd, hni⟩ : ∃ l,
      runActions tid prompt fault = l ++ [RunAction.enqueue (endEvent tid)]
      ∧ RunAction.setDone ∈ l
      ∧ RunAction.enqueue (endEvent tid) ∉ l := by
    cases fault with
    | none =>
      refine ⟨(tryEvents tid prompt).map .enqueue ++ [.setDone], ?_, ?_, ?_⟩
      · show (tryEvents tid prompt).map RunAction.enqueue
            ++ [RunAction.setDone, RunAction.enqueue (endEvent tid)]
          = ((tryEvents tid prompt).map RunAction.enqueue ++ [RunAction.setDone])
            ++ [RunAction.enqueue (endEvent tid)]
        rw [List.append_assoc]
        rfl
      · simp
      · intro hc
        rcases List.mem_append.mp hc with hc | hc
        · rw [List.mem_map] at hc
          obtain ⟨e, he, heq⟩ := hc
          rw [show e = endEvent tid from
            (RunAction.enqueue.injEq ..).mp heq] at he
          exact endEvent_not_mem_tryEvents tid prompt he
        · simp at hc
    | some km =>
      obtain ⟨k, msg⟩ := km
      refine ⟨((tryEvents tid prompt).take k).map .enqueue
          ++ [.setError msg, .enqueue (errorEvent msg tid), .setDone], ?_, ?_, ?_⟩
      · show ((tryEvents tid prompt).take k).map RunAction.enqueue
            ++ [RunAction.setError msg, RunAction.enqueue (errorEvent msg tid),
                RunAction.setDone, RunAction.enqueue (endEvent tid)]
          = (((tryEvents tid prompt).take k).map RunAction.enqueue
            ++ [RunAction.setError msg, RunAction.enqueue (errorEvent msg tid),
                RunAction.setDone]) ++ [RunAction.enqueue (endEvent tid)]
        rw [List.append_assoc]
        rfl
      · simp
      · intro hc
        rcases List.mem_append.mp hc with hc | hc
        · rw [List.mem_map] at hc
          obtain ⟨e, he, heq⟩ := hc
          rw [show e = endEvent tid from
            (RunAction.enqueue.injEq ..).mp heq] at he
          exact endEvent_not_mem_tryEvents tid prompt (List.take_subset k _ he)
        · simp [endEvent, errorEvent] at hc
  rw [hl] at hmem
  unfold stateAt
  rw [hl, take_concat_eq_of_mem l _ n hni hmem]
  exact foldl_applyAction_done_of_mem _ _ (List.mem_append.mpr (Or.inl hsd))

/-- C2 witness: on the concrete trace of the empty prompt, after all nine
actions the `end` event is in the queue and `done` is true. -/
theorem c2_done_set_no_later_than_end_witness :
    endEvent "t" ∈ (stateAt (runActions "t" "" none) 9).events
    ∧ (stateAt (runActions "t" "" none) 9).done = true :=
  ⟨by decide, c2_done_set_no_later_than_end "t" "" none 9 (by decide)⟩

/-- C2 counterexample: the claim "`done` is true exactly when an `end`
event has been enqueued, and never transitions to true earlier than the
`end` enqueue" is false on the code — after eight actions of the run for
the empty prompt (through `state.done = True` at line 103, before the
`finally` block), `done` is already true while no `end` event has been
enqueued. -/
theorem c2_counterexample_done_before_end :
    (stateAt (runActions "t" "" none) 8).done = true
    ∧ countEnd (stateAt (runActions "t" "" none) 8).events = 0 := by decide

/-- C3: a stream-connect attempt with an absent or malformed credential
(no header, empty header, no bearer scheme, or a token not of the
verifier's `token-<email>` shape — exactly the cases in which no identity
decodes) is closed with code 4401 and delivers zero events; an attempt
whose credential decodes to an identity `B` while the task is unknown or
its recorded owner differs from `B` is closed with code 4403 and delivers
zero events; an unknown task id yields the very same outcome as an owner
mismatch; and the two close codes are distinct. -/
theorem c3_gate_codes (authHeader : Option String) (owner : Option String)
    (queue : List GenerationEvent) :
    (decodeIdentity authHeader = none →
      wsConnect authHeader owner queue = (.closed 4401, []))
    ∧ (∀ B, decodeIdentity authHeader = some B → (∀ o, owner = some o → o ≠ B) →
      wsConnect authHeader owner queue = (.closed 4403, []))
    ∧ (∀ B o, decodeIdentity authHeader = some B → o ≠ B →
      wsGate authHeader none = wsGate authHeader (some o))
    ∧ (4401 : Nat) ≠ 4403 := by
  refine ⟨?_, ?_, ?_, by decide⟩
  · intro h
    exact wsConnect_of_gate_closed _ _ _ _ (wsGate_of_decode_none _ _ h)
  · intro B hdec how
    exact wsConnect_of_gate_closed _ _ _ _ (wsGate_of_decode_some _ _ B hdec how)
  · intro B o hdec hne
    rw [wsGate_of_decode_some _ _ B hdec (fun o' h => Option.noConfusion h),
      wsGate_of_decode_some _ _ B hdec
        (fun o' h => by rw [← Option.some.injEq o' o |>.mp h.symm] at hne; exact hne)]

/-- C3 witness: a connection authenticated as `b@x.com` on a task owned by
`a@x.com` is closed with 4403 and receives zero events. -/
theorem c3_gate_codes_witness :
    wsConnect (some "Bearer token-b@x.com") (some "a@x.com") [] = (.closed 4403, []) :=
  (c3_gate_codes (some "Bearer token-b@x.com") (some "a@x.com") []).2.1 "b@x.com"
    (by decide) (fun o ho => by cases ho; decide)

/-- C4: for every non-empty prompt the Runner emits exactly as many
`token` events as the prompt has whitespace-delimited words (`pySplit`,
Python's separator-less `str.split`), with `index` values forming exactly
the sequence 1..N in order with no gaps or repeats; for the empty prompt
it emits the fixed three-token placeholder sequence. -/
theorem c4_token_events (tid prompt : String) (hne : prompt ≠ "") :
    ((tokenEvts (runEvents tid prompt none)).length = (pySplit prompt).length
      ∧ (tokenEvts (runEvents tid prompt none)).map tokenIndex
          = List.range' 1 (pySplit prompt).length)
    ∧ tokenEvts (runEvents tid "" none)
        = [tokenEvent 1 "[no]" tid, tokenEvent 2 "prompt" tid,
           tokenEvent 3 "provided" tid] := by
  constructor
  · rw [tokenEvts_runEvents_none, ← tokenize_prompt_ne prompt hne]
    exact ⟨length_promptTokenEvents tid prompt,
      map_tokenIndex_promptTokenEvents tid prompt⟩
  · rw [tokenEvts_runEvents_none]
    rfl

/-- C4 witness: the two-word prompt "ab c" yields two token events with
indices 1 and 2. -/
theorem c4_token_events_witness :
    (tokenEvts (runEvents "t" "ab c" none)).length = (pySplit "ab c").length
    ∧ (tokenEvts (runEvents "t" "ab c" none)).map tokenIndex
        = List.range' 1 (pySplit "ab c").length :=
  (c4_token_events "t" "ab c" (by decide)).1

theorem take_tryEvents_filter_error (tid p : String) (k : Nat) :
    ((tryEvents tid p).take k).filter (fun e => e.type = "error") = [] :=
  List.filter_eq_nil_iff.mpr fun e he => by
    rcases type_of_mem_tryEvents (List.take_subset k _ he) with h | h | h <;> simp [h]

theorem completed_not_mem_tryInitEvents (tid p : String) :
    statusEvent "completed" tid ∉ tryInitEvents tid p := by
  intro h
  rcases List.mem_cons.mp h with h | h
  · simp [statusEvent] at h
  · rcases List.mem_append.mp h with h | h
    · have := type_of_mem_promptTokenEvents h
      simp [statusEvent] at this
    · have := type_of_mem_promptDiffEvents h
      simp [statusEvent] at this

theorem completed_not_mem_take (tid p : String) (k : Nat)
    (hk : k < (tryEvents tid p).length) :
    statusEvent "completed" tid ∉ (tryEvents tid p).take k := by
  intro h
  have hlen : k ≤ (tryInitEvents tid p).length := by
    unfold tryEvents at hk
    rw [List.length_append] at hk
    simp only [List.length_cons, List.length_nil] at hk
    omega
  rw [show tryEvents tid p = tryInitEvents tid p ++ [statusEvent "completed" tid]
      from rfl, List.take_append_of_le_length hlen] at h
  exact completed_not_mem_tryInitEvents tid p (List.take_subset k _ h)

/-- C7: if an exception is raised at any await point of steps 1-4 of
`run_task` (after `k` of the try block's events were enqueued, which is
necessarily before the `status(completed)` enqueue), the runner enqueues
the already-produced prefix, then exactly one `error` event carrying the
exception message, never the `status(completed)` event, and finally the
mandatory `end` event — the trace is a total value of the model, so the
exception never reaches the caller that scheduled the runner. -/
theorem c7_error_containment (tid prompt msg : String) (k : Nat)
    (hk : k < (tryEvents tid prompt).length) :
    runEvents tid prompt (some (k, msg))
      = (tryEvents tid prompt).take k ++ [errorEvent msg tid, endEvent tid]
    ∧ (runEvents tid prompt (some (k, msg))).filter (fun e => e.type = "error")
        = [errorEvent msg tid]
    ∧ statusEvent "completed" tid ∉ runEvents tid prompt (some (k, msg))
    ∧ (runEvents tid prompt (some (k, msg))).getLast? = some (endEvent tid) := by
  refine ⟨runEvents_fault tid prompt k msg, ?_, ?_, runEvents_getLast tid prompt _⟩
  · rw [runEvents_fault, List.filter_append, take_tryEvents_filter_error]
    rfl
  · rw [runEvents_fault]
    intro h
    rcases List.mem_append.mp h with h | h
    · exact completed_not_mem_take tid prompt k hk h
    · rcases List.mem_cons.mp h with h | h
      · simp [statusEvent, errorEvent] at h
      · rcases List.mem_cons.mp h with h | h
        · simp [statusEvent, endEvent] at h
        · cases h

/-- C7 witness: a fault after three enqueued events on the prompt
"add login page". -/
theorem c7_error_containment_witness :
    runEvents "t" "add login page" (some (3, "boom"))
      = (tryEvents "t" "add login page").take 3 ++ [errorEvent "boom" "t", endEvent "t"]
    ∧ (runEvents "t" "add login page" (some (3, "boom"))).filter
        (fun e => e.type = "error") = [errorEvent "boom" "t"]
    ∧ statusEvent "completed" "t" ∉ runEvents "t" "add login page" (some (3, "boom"))
    ∧ (runEvents "t" "add login page" (some (3, "boom"))).getLast? = some (endEvent "t") :=
  c7_error_containment "t" "add login page" "boom" 3 (by decide)

/-- C8: creating a task with prompt "add login page" and running the
Task Runner once enqueues exactly this sequence, in this order:
`status(started)`; tokens "add", "login", "page" with indices 1, 2, 3;
two `file_diff` events with indices 1 and 2; `status(completed)`; `end`. -/
theorem c8_concrete_scenario :
    taskQueue (run_task (create_task emptyService "task-1" "a@x.com" "add login page")
        "task-1" none) "task-1"
      = [statusEvent "started" "task-1",
         tokenEvent 1 "add" "task-1", tokenEvent 2 "login" "task-1",
         tokenEvent 3 "page" "task-1",
         fileDiffEvent 1 ⟨"README.md", "modify",
           "+ Added section for: add login page"⟩ "task-1",
         fileDiffEvent 2 ⟨"src/app/page.tsx", "add",
           "+ Page created for: add login page"⟩ "task-1",
         statusEvent "completed" "task-1",
         endEvent "task-1"] := by decide

/-- C9 (implicit): the registry does not enforce at-most-one runner per
task — `run_task` only guards against an unknown task id, so running an
existing task twice enqueues the full event sequence twice, with two
`end` events; and the unknown-id check is the only guard (on an unknown
id the registry is left untouched for every fault). -/
theorem c9_no_rerun_guard (tid owner prompt : String) :
    (taskQueue (run_task (run_task (create_task emptyService tid owner prompt)
          tid none) tid none) tid
        = runEvents tid prompt none ++ runEvents tid prompt none
      ∧ countEnd (taskQueue (run_task (run_task (create_task emptyService tid owner
          prompt) tid none) tid none) tid) = 2)
    ∧ ∀ (st : GenerationServiceState) (fault : Option (Nat × String)),
        lookupTask st tid = none → run_task st tid fault = st := by
  refine ⟨⟨taskQueue_run_run_create tid owner prompt, ?_⟩, ?_⟩
  · rw [taskQueue_run_run_create]
    unfold countEnd
    rw [List.filter_append, List.length_append]
    have hone := countEnd_runEvents tid prompt none
    unfold countEnd at hone
    rw [hone]
  · intro st fault hnone
    unfold run_task
    rw [hnone]

/-- C9 witness: `run_task` on an empty registry is the identity. -/
theorem c9_no_rerun_guard_witness : run_task emptyService "t" none = emptyService :=
  (c9_no_rerun_guard "t" "o" "p").2 emptyService none rfl

/-- C10 (implicit): a prompt that is non-empty but consists only of
whitespace yields zero `token` events — the tokenizer checks emptiness
before stripping and splitting, so the three-token placeholder is
substituted only for the exactly-empty string. -/
theorem c10_whitespace_only_prompt (tid prompt : String) (hne : prompt ≠ "")
    (hws : ∀ c ∈ prompt.data, c.isWhitespace) :
    tokenEvts (runEvents tid prompt none) = []
    ∧ tokenize_prompt prompt = []
    ∧ tokenize_prompt "" = ["[no]", "prompt", "provided"] := by
  have htok : tokenize_prompt prompt = [] := by
    rw [tokenize_prompt_ne prompt hne]
    exact pySplit_allWs prompt hws
  refine ⟨?_, htok, rfl⟩
  rw [tokenEvts_runEvents_none]
  unfold promptTokenEvents
  rw [htok]
  rfl

/-- C10 witness: the one-space prompt produces no token events. -/
theorem c10_whitespace_only_prompt_witness :
    tokenEvts (runEvents "t" " " none) = []
    ∧ tokenize_prompt " " = []
    ∧ tokenize_prompt "" = ["[no]", "prompt", "provided"] :=
  c10_whitespace_only_prompt "t" " " (by decide) (by decide)

/-- C5: a `broadcast_reload` call that performs its lock check while the
in-flight marker for the key is held returns immediately, sending nothing
and leaving registry, sockets and marker untouched; consequently, for any
point `k` within the first call's critical section at which the second
call checks, two rapid-succession broadcasts to a project with three
registered connections deliver exactly one reload message to each
connection, not two. -/
theorem c5_broadcast_debounce (k : Nat) (h1 : 1 ≤ k) (h4 : k ≤ 4) :
    (∀ (fail : Nat → Bool) (st : BState), st.locked = true →
      broadcastStep fail .start st = (.finished, st, []))
    ∧ ((runSched (fun _ => false) threeConnSys (rapidSched k)).t1 = .finished
      ∧ (runSched (fun _ => false) threeConnSys (rapidSched k)).t2 = .finished
      ∧ (runSched (fun _ => false) threeConnSys (rapidSched k)).log1 = [1, 2, 3]
      ∧ (runSched (fun _ => false) threeConnSys (rapidSched k)).log2 = []
      ∧ ∀ c ∈ [1, 2, 3],
          ((runSched (fun _ => false) threeConnSys (rapidSched k)).log1
            ++ (runSched (fun _ => false) threeConnSys (rapidSched k)).log2).count c
            = 1) := by
  constructor
  · intro fail st h
    simp only [broadcastStep]
    split_ifs with hc <;> rfl
  · interval_cases k <;> exact by decide

/-- C5 witness: the locked-check no-op at a concrete state, and the
rapid-succession schedule with the second check after two steps. -/
theorem c5_broadcast_debounce_witness :
    broadcastStep (fun _ => false) .start ⟨true, [1, 2, 3], true⟩
      = (.finished, ⟨true, [1, 2, 3], true⟩, [])
    ∧ (runSched (fun _ => false) threeConnSys (rapidSched 2)).log2 = [] :=
  ⟨(c5_broadcast_debounce 2 (by decide) (by decide)).1 (fun _ => false)
      ⟨true, [1, 2, 3], true⟩ rfl,
    (c5_broadcast_debounce 2 (by decide) (by decide)).2.2.2.2.1⟩

/-- C6: during a broadcast pass a send step never mutates the registered
socket set (failed writes are only collected); the final step of a pass
removes exactly the collected connections and releases the in-flight
marker unconditionally, including on partial failure; and in the concrete
scenario where connection 2's write fails mid-pass, a subsequent
`broadcast_reload` for the same key runs without error and delivers only
to the remaining connections 1 and 3, which stayed registered. -/
theorem c6_broadcast_failure_handling :
    (∀ (fail : Nat → Bool) (st : BState) (c : Nat) (rest toRemove : List Nat),
      ((broadcastStep fail (.sending (c :: rest) toRemove) st).2.1).sockets
        = st.sockets)
    ∧ (∀ (fail : Nat → Bool) (st : BState) (toRemove : List Nat),
      broadcastStep fail (.sending [] toRemove) st
        = (.finished,
            ⟨st.hasState, st.sockets.filter (fun c => ¬ c ∈ toRemove), false⟩, []))
    ∧ ((runSched (fun c => c = 2) threeConnSys sequentialSched).state.sockets = [1, 3]
      ∧ (runSched (fun c => c = 2) threeConnSys sequentialSched).log1 = [1, 3]
      ∧ (runSched (fun c => c = 2) threeConnSys sequentialSched).log2 = [1, 3]
      ∧ (runSched (fun c => c = 2) threeConnSys sequentialSched).state.locked = false
      ∧ (runSched (fun c => c = 2) threeConnSys sequentialSched).t1 = .finished
      ∧ (runSched (fun c => c = 2) threeConnSys sequentialSched).t2 = .finished) := by
  refine ⟨?_, ?_, by decide⟩
  · intro fail st c rest tr
    simp only [broadcastStep]
    split_ifs <;> rfl
  · intro fail st tr
    rfl

end LovableBackend
